import Mathlib

/- Verification development for the playlist interchange and reconciliation
   engine of PlexPlaylistApp. The definitions below are a shallow embedding
   of src/playlist_io.py (the JSON import branch, the exporter and the
   preview operation) together with the Missing-Movies side-file handling of
   src/PlexPlaylistApp.py. The catalog session (plexapi server) is modelled
   as a record of fallible operations; Python exceptions are modelled with
   Except; Python dict/JSON values are modelled with an explicit Json type;
   Python truthiness tests on optional fields are modelled by the truthy
   functions below. -/

namespace PlexSpec

/- String helpers. Python string primitives used by the source, rewritten
   over the character list of a string so that they compute. -/

/-- Model of Python str.startswith restricted to character lists. -/
def startsWithL : List Char → List Char → Bool
  | _, [] => true
  | [], _ :: _ => false
  | a :: as, b :: bs => (a == b) && startsWithL as bs

/-- Model of the Python substring test (needle in hay). -/
def containsL (hay needle : List Char) : Bool :=
  match hay with
  | [] => needle.isEmpty
  | _ :: rest => startsWithL hay needle || containsL rest needle

/-- Model of the Python substring test on strings. -/
def containsSub (hay needle : String) : Bool := containsL hay.data needle.data

/-- Model of Python str.endswith. -/
def strEndsWith (s pat : String) : Bool :=
  Nat.ble pat.data.length s.data.length &&
  (s.data.drop (s.data.length - pat.data.length) == pat.data)

/-- Model of Python str.lower. -/
def lowerStr (s : String) : String := ⟨s.data.map Char.toLower⟩

/-- Characters before the first occurrence of sep, helper for lastSegment. -/
def takeUntilSep (sep : List Char) : List Char → List Char
  | [] => []
  | c :: rest => if startsWithL (c :: rest) sep then [] else c :: takeUntilSep sep rest

/-- Model of the Python idiom s.split(sep)[-1]: the segment after the last
occurrence of sep, or the whole string if sep does not occur. -/
def lastSegment (sep : String) (s : String) : String :=
  ⟨(takeUntilSep sep.data.reverse s.data.reverse).reverse⟩

/-- Part of a character list before its last dot, helper for splitextStem. -/
def dropLastExt (cs : List Char) : List Char :=
  match cs.reverse.dropWhile (fun c => c ≠ '.') with
  | [] => cs
  | _ :: rest => rest.reverse

/-- Model of os.path.splitext(s)[0]: drop the extension from the last dot on,
unless every character before that dot is itself a dot. -/
def splitextStem (s : String) : String :=
  let lead := s.data.takeWhile (fun c => c = '.')
  let rest := s.data.dropWhile (fun c => c = '.')
  if rest.any (fun c => c = '.') then ⟨lead ++ dropLastExt rest⟩ else s

/-- Model of os.path.basename for POSIX paths: the part after the last slash. -/
def basename (p : String) : String := lastSegment "/" p

/- Data model: the catalog side. -/

/-- Catalog error: the message of a raised Python exception from a catalog
call (plexapi NotFound, network failure, and so on). -/
structure CatErr where
  msg : String
  deriving DecidableEq

/-- A live catalog media entry as the matching code reads it: its composite
GUID (searched for the external id substring) and its rating key. -/
structure Media where
  guid : String
  key : Nat
  deriving DecidableEq, Inhabited

/-- The catalog session (plexapi PlexServer) as a record of fallible
operations: fetch by rating key, obtain the Movies section, search the
Movies section by title and optional year, create a playlist, and the
display name used by the exporter. -/
structure Server where
  fetchItem : Nat → Except CatErr Media
  moviesSection : Except CatErr Unit
  search : String → Option Int → Except CatErr (List Media)
  createPlaylist : String → List Media → Except CatErr Unit
  friendlyName : String

/-- A serialized item as parsed from the JSON import file: the dict with
keys title, year, type, imdb_id, plex_rating_key. -/
structure Item where
  title : String
  year : Option Int
  type : String
  imdb_id : Option String
  plex_rating_key : Option Nat
  deriving DecidableEq, Inhabited

/-- A serialized playlist as parsed from the JSON import file. -/
structure PL where
  name : String
  description : String
  items : List Item
  deriving DecidableEq, Inhabited

/-- Python truthiness of an optional rating key (None and 0 are falsy). -/
def truthyKey : Option Nat → Bool
  | some k => k != 0
  | none => false

/-- Python truthiness of an optional string (None and the empty string are
falsy). -/
def truthyStr : Option String → Bool
  | some v => v != ""
  | none => false

/-- Python truthiness of an optional year (None and 0 are falsy). -/
def truthyYear : Option Int → Bool
  | some y => y != 0
  | none => false

/-- One catalog call, recorded so that theorems can speak about which
catalog operations an import performs. -/
inductive CatCall where
  | fetch (key : Nat)
  | sectionLookup
  | searchCall (title : String) (year : Option Int)
  | create (name : String) (items : List Media)
  deriving DecidableEq

/-- Result helper: is an Except value a success. -/
def isOkE {α : Type} : Except CatErr α → Bool
  | Except.ok _ => true
  | Except.error _ => false

/- Embedding of find_media_in_plex (src/playlist_io.py lines 158-201).
   Each function returns the trace of catalog calls it makes paired with
   its outcome; Except.error models an uncaught Python exception. -/

/-- Fallback to title only (lines 199-201 of src/playlist_io.py): search by
title alone and take the first result if any. -/
def tryTitleOnly (s : Server) (item : Item) : List CatCall × Except CatErr (Option Media) :=
  match s.search item.title none with
  | Except.error e => ([CatCall.searchCall item.title none], Except.error e)
  | Except.ok rs => ([CatCall.searchCall item.title none], Except.ok rs.head?)

/-- Try by title and year (lines 194-198): when the year is truthy, search
by title and year and take the first result if any, else fall through to
the title-only search. -/
def tryTitleYear (s : Server) (item : Item) : List CatCall × Except CatErr (Option Media) :=
  if truthyYear item.year then
    match s.search item.title item.year with
    | Except.error e => ([CatCall.searchCall item.title item.year], Except.error e)
    | Except.ok rs =>
      match rs with
      | r :: _ => ([CatCall.searchCall item.title item.year], Except.ok (some r))
      | [] =>
        let t := tryTitleOnly s item
        (CatCall.searchCall item.title item.year :: t.1, t.2)
  else tryTitleOnly s item

/-- Try by external id (lines 181-193): when the imdb id is truthy, search
by title (and year when truthy), keep the first result whose guid contains
the imdb id, else fall through to the title-and-year search. -/
def tryImdb (s : Server) (item : Item) : List CatCall × Except CatErr (Option Media) :=
  if truthyStr item.imdb_id then
    match (if truthyYear item.year then s.search item.title item.year
           else s.search item.title none) with
    | Except.error e =>
      ([CatCall.searchCall item.title (if truthyYear item.year then item.year else none)],
       Except.error e)
    | Except.ok rs =>
      match rs.find? (fun r => containsSub r.guid (item.imdb_id.getD "")) with
      | some r =>
        ([CatCall.searchCall item.title (if truthyYear item.year then item.year else none)],
         Except.ok (some r))
      | none =>
        let t := tryTitleYear s item
        (CatCall.searchCall item.title (if truthyYear item.year then item.year else none)
           :: t.1, t.2)
  else tryTitleYear s item

/-- Embedding of find_media_in_plex (lines 158-201): first the direct fetch
by rating key with any failure swallowed, then the Movies section lookup
whose failure yields no match, then the external-id, title-and-year and
title-only strategies. -/
def find_media_in_plex (s : Server) (item : Item) : List CatCall × Except CatErr (Option Media) :=
  let onSection : List CatCall × Except CatErr (Option Media) :=
    match s.moviesSection with
    | Except.error _ => ([CatCall.sectionLookup], Except.ok none)
    | Except.ok _ =>
      let t := tryImdb s item
      (CatCall.sectionLookup :: t.1, t.2)
  if truthyKey item.plex_rating_key then
    match s.fetchItem (item.plex_rating_key.getD 0) with
    | Except.ok m => ([CatCall.fetch (item.plex_rating_key.getD 0)], Except.ok (some m))
    | Except.error _ =>
      (CatCall.fetch (item.plex_rating_key.getD 0) :: onSection.1, onSection.2)
  else onSection

/- Specification-level matching chain, written from the words of the spec
   (section 4.2, Matching algorithm): four named strategies tried in fixed
   priority order, stopping at the first success, with the short-circuit on
   a failed Movies-section lookup. Used to state claim C1 as a refinement. -/

/-- Spec strategy 1: direct fetch by the stable catalog identifier when
present, any failure swallowed. -/
def spec_strategy1 (s : Server) (item : Item) : Option Media :=
  if truthyKey item.plex_rating_key then
    match s.fetchItem (item.plex_rating_key.getD 0) with
    | Except.ok m => some m
    | Except.error _ => none
  else none

/-- Spec strategy 2: when an external id is present, a title (and year when
present) search filtered to results whose guid contains the external id. -/
def spec_strategy2 (s : Server) (item : Item) : Except CatErr (Option Media) :=
  if truthyStr item.imdb_id then
    match (if truthyYear item.year then s.search item.title item.year
           else s.search item.title none) with
    | Except.error e => Except.error e
    | Except.ok rs => Except.ok (rs.find? (fun r => containsSub r.guid (item.imdb_id.getD "")))
  else Except.ok none

/-- Spec strategy 3: title and year search when a year is present, first
result taken. -/
def spec_strategy3 (s : Server) (item : Item) : Except CatErr (Option Media) :=
  if truthyYear item.year then
    match s.search item.title item.year with
    | Except.error e => Except.error e
    | Except.ok rs => Except.ok rs.head?
  else Except.ok none

/-- Spec strategy 4: title-only search, first result taken. -/
def spec_strategy4 (s : Server) (item : Item) : Except CatErr (Option Media) :=
  match s.search item.title none with
  | Except.error e => Except.error e
  | Except.ok rs => Except.ok rs.head?

/-- Chain two strategies: stop at the first success, propagate a raised
error, fall through on no match. -/
def orTry (a b : Except CatErr (Option Media)) : Except CatErr (Option Media) :=
  match a with
  | Except.error e => Except.error e
  | Except.ok (some m) => Except.ok (some m)
  | Except.ok none => b

/-- The matching algorithm as the spec words it: strategy 1, then, only if
the Movies section can be obtained, strategies 2, 3, 4 in order; if the
section cannot be obtained, no match and no further strategies. -/
def spec_find_media (s : Server) (item : Item) : Except CatErr (Option Media) :=
  match spec_strategy1 s item with
  | some m => Except.ok (some m)
  | none =>
    match s.moviesSection with
    | Except.error _ => Except.ok none
    | Except.ok _ =>
      orTry (spec_strategy2 s item) (orTry (spec_strategy3 s item) (spec_strategy4 s item))

lemma tryTitleOnly_spec (s : Server) (item : Item) :
    (tryTitleOnly s item).2 = spec_strategy4 s item := by
  unfold tryTitleOnly spec_strategy4
  cases h : s.search item.title none <;> simp

lemma tryTitleYear_spec (s : Server) (item : Item) :
    (tryTitleYear s item).2 = orTry (spec_strategy3 s item) (spec_strategy4 s item) := by
  unfold tryTitleYear spec_strategy3
  cases hy : truthyYear item.year with
  | false => simp [orTry, tryTitleOnly_spec]
  | true =>
    simp only [if_pos rfl]
    cases hs : s.search item.title item.year with
    | error e => simp [orTry]
    | ok rs =>
      cases rs with
      | nil => simp [orTry, tryTitleOnly_spec]
      | cons r tl => simp [orTry]

lemma tryImdb_spec (s : Server) (item : Item) :
    (tryImdb s item).2
      = orTry (spec_strategy2 s item) (orTry (spec_strategy3 s item) (spec_strategy4 s item)) := by
  unfold tryImdb spec_strategy2
  cases hi : truthyStr item.imdb_id with
  | false => simp [orTry, tryTitleYear_spec]
  | true =>
    simp only [if_pos rfl]
    cases hs : (if truthyYear item.year then s.search item.title item.year
                else s.search item.title none) with
    | error e => simp [orTry]
    | ok rs =>
      cases hf : rs.find? (fun r => containsSub r.guid (item.imdb_id.getD "")) with
      | none => simp [hf, orTry, tryTitleYear_spec]
      | some r => simp [hf, orTry]

/-- Claim C1: for every item the matching function behaves exactly as the
fixed-priority strategy chain of the spec: direct fetch by stable
identifier with failures swallowed, then, only when the Movies section can
be obtained, external-id filtered search, then title-and-year, then
title-only, stopping at the first strategy that yields a match; if the
Movies section cannot be obtained the item is unmatched with no further
strategies attempted. -/
theorem find_media_matches_spec (s : Server) (item : Item) :
    (find_media_in_plex s item).2 = spec_find_media s item := by
  unfold find_media_in_plex spec_find_media spec_strategy1
  cases hk : truthyKey item.plex_rating_key with
  | false =>
    simp only [Bool.false_eq_true, if_false]
    cases hsec : s.moviesSection with
    | error e => simp
    | ok u => simp [tryImdb_spec]
  | true =>
    simp only [if_pos rfl]
    cases hf : s.fetchItem (item.plex_rating_key.getD 0) with
    | ok m => simp
    | error e =>
      cases hsec : s.moviesSection with
      | error e2 => simp
      | ok u => simp [tryImdb_spec]

/- Embedding of the JSON branch of import_from_file
   (src/playlist_io.py lines 92-155) and of the Missing-Movies side-file
   handling of PlexPlaylistApp.import_playlists. Cancellation is modelled
   by an optional Boolean schedule polled once per item-loop iteration,
   indexed by the number of polls made so far in the call (the code polls
   cancel_event.is_set() once at the top of each iteration); the progress
   callback is modelled by recording its invocations when one is supplied. -/

/-- Outcome of one playlist's item loop: ran to completion with the matched
media (the for-else fires), observed cancellation at an index, or an
exception raised by a catalog search escaped the loop. -/
inductive ItemsOut where
  | done (matched : List Media)
  | cancelled (idx : Nat)
  | raised (e : CatErr)
  deriving DecidableEq

/-- Trace of one playlist's item loop: items appended to the global
unmatched collector, progress-callback invocations, catalog calls, the poll
counter after the loop, and the outcome. -/
structure ItemsRes where
  missing : List Item
  progress : List (Nat × Nat)
  calls : List CatCall
  polls : Nat
  out : ItemsOut
  deriving DecidableEq

/-- One cancellation poll: false when no cancel event was supplied. -/
def pollCancel (cancel : Option (Nat → Bool)) (n : Nat) : Bool :=
  match cancel with
  | some c => c n
  | none => false

/-- The item loop of import_from_file (lines 105-115): per item, poll
cancellation and break with the current index on a set event, otherwise
match the item (an escaping exception aborts the loop), append to matched
or to the unmatched collector, and invoke the progress callback when one is
supplied. -/
def itemLoop (s : Server) (cancel : Option (Nat → Bool)) (hp : Bool) (total : Nat) :
    List Item → Nat → Nat → ItemsRes
  | [], _idx, polls => ⟨[], [], [], polls, ItemsOut.done []⟩
  | item :: rest, idx, polls =>
    if pollCancel cancel polls then ⟨[], [], [], polls + 1, ItemsOut.cancelled idx⟩
    else
      let fm := find_media_in_plex s item
      match fm.2 with
      | Except.error e => ⟨[], [], fm.1, polls + 1, ItemsOut.raised e⟩
      | Except.ok mopt =>
        let r := itemLoop s cancel hp total rest (idx + 1) (polls + 1)
        ⟨(match mopt with
          | none => [item]
          | some _ => []) ++ r.missing,
         (if hp then [(idx + 1, total)] else []) ++ r.progress,
         fm.1 ++ r.calls,
         r.polls,
         match r.out, mopt with
         | ItemsOut.done ms, some m => ItemsOut.done (m :: ms)
         | ItemsOut.done ms, none => ItemsOut.done ms
         | ItemsOut.cancelled i, _ => ItemsOut.cancelled i
         | ItemsOut.raised e, _ => ItemsOut.raised e⟩

/-- Result of processing one or more playlists: summary lines, the global
unmatched collector, progress invocations, catalog calls, the poll counter,
and the exception that escaped, if any. -/
structure PlayRes where
  results : List String
  missing : List Item
  progress : List (Nat × Nat)
  calls : List CatCall
  polls : Nat
  raised : Option CatErr
  deriving DecidableEq

/-- Processing of one playlist (lines 97-122): skip it when its original
name is not a key of the rename map; otherwise run the item loop and, when
it ran to completion, request playlist creation and record the added or
ERROR summary line; on an observed cancellation record the cancelled line
and do not create. -/
def processPlaylist (s : Server) (rename : String → Option String)
    (cancel : Option (Nat → Bool)) (hp : Bool) (polls : Nat) (pl : PL) : PlayRes :=
  match rename pl.name with
  | none => ⟨[], [], [], [], polls, none⟩
  | some newName =>
    let total := pl.items.length
    let r := itemLoop s cancel hp total pl.items 0 polls
    match r.out with
    | ItemsOut.raised e => ⟨[], r.missing, r.progress, r.calls, r.polls, some e⟩
    | ItemsOut.cancelled idx =>
      ⟨[newName ++ ": Import cancelled at " ++ toString idx ++ "/" ++ toString total],
       r.missing, r.progress, r.calls, r.polls, none⟩
    | ItemsOut.done matched =>
      match s.createPlaylist newName matched with
      | Except.error e =>
        ⟨[newName ++ ": ERROR " ++ e.msg], r.missing, r.progress,
         r.calls ++ [CatCall.create newName matched], r.polls, none⟩
      | Except.ok _ =>
        ⟨[newName ++ ": added " ++ toString matched.length ++ "/" ++ toString pl.items.length],
         r.missing, r.progress, r.calls ++ [CatCall.create newName matched], r.polls, none⟩

/-- Processing of the playlists of the parsed document in order (line 97);
an escaping exception stops the whole run. -/
def processPlaylists (s : Server) (rename : String → Option String)
    (cancel : Option (Nat → Bool)) (hp : Bool) : List PL → Nat → PlayRes
  | [], polls => ⟨[], [], [], [], polls, none⟩
  | pl :: rest, polls =>
    let r := processPlaylist s rename cancel hp polls pl
    match r.raised with
    | some _ => r
    | none =>
      let r2 := processPlaylists s rename cancel hp rest r.polls
      ⟨r.results ++ r2.results, r.missing ++ r2.missing, r.progress ++ r2.progress,
       r.calls ++ r2.calls, r2.polls, r2.raised⟩

/-- Result of one import_from_file call: the returned summary (or the
escaped exception), the state of the Missing Movies side file after the
call, and the trace of the run. -/
structure ImportResult where
  ret : Except CatErr String
  missFile : Option (List Item)
  trace : PlayRes

/-- Embedding of import_from_file on an already parsed JSON document
(lines 92-155): process the playlists, then write the Missing Movies file
when the unmatched collector is non-empty; an escaping exception skips the
write and leaves the file as it was. The side file is modelled by an
optional content (none when absent). -/
def import_from_file (s : Server) (rename : String → Option String)
    (cancel : Option (Nat → Bool)) (hp : Bool) (doc : List PL)
    (fileBefore : Option (List Item)) : ImportResult :=
  let r := processPlaylists s rename cancel hp doc 0
  match r.raised with
  | some e => ⟨Except.error e, fileBefore, r⟩
  | none =>
    ⟨Except.ok (String.intercalate "\n" r.results),
     if r.missing.isEmpty then fileBefore else some r.missing, r⟩

/-- Result of the app-level import flow around the call: the returned
summary, the side-file state at the end, and whether the missing-movies
warning was appended. -/
structure AppRes where
  ret : Except CatErr String
  fileAfter : Option (List Item)
  warned : Bool

/-- Embedding of the run_import body of PlexPlaylistApp.import_playlists
(src/PlexPlaylistApp.py lines 376-395): call import_from_file, then, when a
Missing Movies file exists, load it; when the loaded list is non-empty,
append the warning and keep the file, else remove it. On an exception from
the import the check is skipped. -/
def import_playlists_run (s : Server) (rename : String → Option String)
    (cancel : Option (Nat → Bool)) (hp : Bool) (doc : List PL)
    (fileBefore : Option (List Item)) : AppRes :=
  let r := import_from_file s rename cancel hp doc fileBefore
  match r.ret with
  | Except.error e => ⟨Except.error e, r.missFile, false⟩
  | Except.ok str =>
    match r.missFile with
    | none => ⟨Except.ok str, none, false⟩
    | some l => if l.isEmpty then ⟨Except.ok str, none, false⟩ else ⟨Except.ok str, some l, true⟩

/- Spec-level descriptions of a completed run, used by claims C2, C5, C6. -/

/-- The matched items of a run over the given items, in original order
compacted by removing unmatched items. -/
def matchedOf (s : Server) (items : List Item) : List Media :=
  items.filterMap (fun it =>
    match (find_media_in_plex s it).2 with
    | Except.ok (some m) => some m
    | _ => none)

/-- The unmatched items of a run over the given items, in original order. -/
def missedOf (s : Server) (items : List Item) : List Item :=
  items.filter (fun it =>
    match (find_media_in_plex s it).2 with
    | Except.ok none => true
    | _ => false)

/-- Is a recorded catalog call a playlist creation. -/
def isCreateCall : CatCall → Bool
  | CatCall.create _ _ => true
  | _ => false

/-- Does a call trace contain a playlist creation. -/
def hasCreate (cs : List CatCall) : Bool := cs.any isCreateCall

lemma hasCreate_cons (c : CatCall) (cs : List CatCall) :
    hasCreate (c :: cs) = (isCreateCall c || hasCreate cs) := rfl

lemma hasCreate_append (a b : List CatCall) :
    hasCreate (a ++ b) = (hasCreate a || hasCreate b) := by
  simp [hasCreate, List.any_append]

lemma hasCreate_tryTitleOnly (s : Server) (item : Item) :
    hasCreate (tryTitleOnly s item).1 = false := by
  unfold tryTitleOnly
  cases h : s.search item.title none <;> simp [hasCreate, isCreateCall]

lemma hasCreate_tryTitleYear (s : Server) (item : Item) :
    hasCreate (tryTitleYear s item).1 = false := by
  unfold tryTitleYear
  cases hy : truthyYear item.year with
  | false => simp [hasCreate_tryTitleOnly]
  | true =>
    simp only [if_pos rfl]
    cases hs : s.search item.title item.year with
    | error e => simp [hasCreate, isCreateCall]
    | ok rs =>
      cases rs with
      | nil => simp [hasCreate_cons, isCreateCall, hasCreate_tryTitleOnly]
      | cons r tl => simp [hasCreate, isCreateCall]

lemma hasCreate_tryImdb (s : Server) (item : Item) :
    hasCreate (tryImdb s item).1 = false := by
  unfold tryImdb
  cases hi : truthyStr item.imdb_id with
  | false => simp [hasCreate_tryTitleYear]
  | true =>
    simp only [if_pos rfl]
    cases hs : (if truthyYear item.year then s.search item.title item.year
                else s.search item.title none) with
    | error e => simp [hasCreate, isCreateCall]
    | ok rs =>
      cases hf : rs.find? (fun r => containsSub r.guid (item.imdb_id.getD "")) with
      | none => simp [hf, hasCreate_cons, isCreateCall, hasCreate_tryTitleYear]
      | some r => simp [hf, hasCreate, isCreateCall]

lemma hasCreate_find_media (s : Server) (item : Item) :
    hasCreate (find_media_in_plex s item).1 = false := by
  unfold find_media_in_plex
  cases hk : truthyKey item.plex_rating_key with
  | false =>
    simp only [Bool.false_eq_true, if_false]
    cases hsec : s.moviesSection with
    | error e => simp [hasCreate, isCreateCall]
    | ok u => simp [hasCreate_cons, isCreateCall, hasCreate_tryImdb]
  | true =>
    simp only [if_pos rfl]
    cases hf : s.fetchItem (item.plex_rating_key.getD 0) with
    | ok m => simp [hasCreate, isCreateCall]
    | error e =>
      cases hsec : s.moviesSection with
      | error e2 => simp [hasCreate_cons, isCreateCall, hasCreate]
      | ok u => simp [hasCreate_cons, isCreateCall, hasCreate_tryImdb]

lemma range_map_pair (a total n : Nat) :
    (List.range (n + 1)).map (fun i => (a + i, total))
      = (a, total) :: (List.range n).map (fun i => (a + 1 + i, total)) := by
  rw [List.range_succ_eq_map, List.map_cons, List.map_map]
  congr 1
  simp
  intro i _
  omega

/-- A run of the item loop that is never cancelled and never sees an
escaping exception processes every item: it ends done with the matched
items in compacted original order, collects exactly the unmatched items,
invokes the progress callback once per item with increasing counters, makes
no creation call, and advances the poll counter once per item. -/
lemma itemLoop_complete (s : Server) (cancel : Option (Nat → Bool)) (hp : Bool) (total : Nat) :
    ∀ (items : List Item) (idx p0 : Nat),
      (∀ i, i < items.length → pollCancel cancel (p0 + i) = false) →
      (∀ it, it ∈ items → isOkE (find_media_in_plex s it).2 = true) →
      (itemLoop s cancel hp total items idx p0).out = ItemsOut.done (matchedOf s items)
      ∧ (itemLoop s cancel hp total items idx p0).missing = missedOf s items
      ∧ (itemLoop s cancel hp total items idx p0).progress
          = (if hp then (List.range items.length).map (fun i => (idx + 1 + i, total)) else [])
      ∧ hasCreate (itemLoop s cancel hp total items idx p0).calls = false
      ∧ (itemLoop s cancel hp total items idx p0).polls = p0 + items.length := by
  intro items
  induction items with
  | nil =>
    intro idx p0 _ _
    simp [itemLoop, matchedOf, missedOf, hasCreate]
  | cons it rest ih =>
    intro idx p0 h1 h2
    have hc0 : pollCancel cancel p0 = false := by
      have h := h1 0 (by simp)
      simpa using h
    have hok : isOkE (find_media_in_plex s it).2 = true := h2 it (by simp)
    have h1r : ∀ i, i < rest.length → pollCancel cancel (p0 + 1 + i) = false := by
      intro i hi
      have e : p0 + 1 + i = p0 + (i + 1) := by omega
      rw [e]
      exact h1 (i + 1) (by simp; omega)
    have h2r : ∀ x, x ∈ rest → isOkE (find_media_in_plex s x).2 = true := by
      intro x hx
      exact h2 x (List.mem_cons_of_mem _ hx)
    obtain ⟨ihOut, ihMiss, ihProg, ihCalls, ihPolls⟩ := ih (idx + 1) (p0 + 1) h1r h2r
    cases hfm : (find_media_in_plex s it).2 with
    | error e => rw [hfm] at hok; simp [isOkE] at hok
    | ok mopt =>
      simp only [itemLoop, hc0, Bool.false_eq_true, if_false, hfm]
      cases mopt with
      | some m =>
        refine ⟨?_, ?_, ?_, ?_, ?_⟩
        · simp only [ihOut]
          simp [matchedOf, List.filterMap_cons, hfm]
        · simp only [ihMiss]
          simp [missedOf, List.filter_cons, hfm]
        · simp only [ihProg]
          cases hp with
          | false => simp
          | true => simp [range_map_pair]
        · simp [hasCreate_append, hasCreate_find_media, ihCalls]
        · simp only [ihPolls]
          simp only [List.length_cons]
          omega
      | none =>
        refine ⟨?_, ?_, ?_, ?_, ?_⟩
        · simp only [ihOut]
          simp [matchedOf, List.filterMap_cons, hfm]
        · simp only [ihMiss]
          simp [missedOf, List.filter_cons, hfm]
        · simp only [ihProg]
          cases hp with
          | false => simp
          | true => simp [range_map_pair]
        · simp [hasCreate_append, hasCreate_find_media, ihCalls]
        · simp only [ihPolls]
          simp only [List.length_cons]
          omega

/-- A run of the item loop that observes cancellation at its poll number k,
after k items were processed without an escaping exception, ends cancelled
at index k, invokes the progress callback exactly once per processed item,
and makes no creation call. -/
lemma itemLoop_cancelled (s : Server) (c : Nat → Bool) (hp : Bool) (total : Nat) :
    ∀ (items : List Item) (k idx p0 : Nat),
      k < items.length →
      (∀ i, i < k → c (p0 + i) = false) →
      c (p0 + k) = true →
      (∀ i, i < k → isOkE (find_media_in_plex s (items.getD i default)).2 = true) →
      (itemLoop s (some c) hp total items idx p0).out = ItemsOut.cancelled (idx + k)
      ∧ (itemLoop s (some c) hp total items idx p0).progress
          = (if hp then (List.range k).map (fun i => (idx + 1 + i, total)) else [])
      ∧ hasCreate (itemLoop s (some c) hp total items idx p0).calls = false := by
  intro items
  induction items with
  | nil =>
    intro k idx p0 hk
    exact absurd hk (by simp)
  | cons it rest ih =>
    intro k idx p0 hk h1 h2 hok
    cases k with
    | zero =>
      have hc : pollCancel (some c) p0 = true := by simpa [pollCancel] using h2
      simp [itemLoop, hc, hasCreate]
    | succ k0 =>
      have hc0 : pollCancel (some c) p0 = false := by
        have h := h1 0 (Nat.succ_pos k0)
        simpa [pollCancel] using h
      have hok0 : isOkE (find_media_in_plex s it).2 = true := by
        have h := hok 0 (Nat.succ_pos k0)
        simpa using h
      cases hfm : (find_media_in_plex s it).2 with
      | error e => rw [hfm] at hok0; simp [isOkE] at hok0
      | ok mopt =>
        have h1r : ∀ i, i < k0 → c (p0 + 1 + i) = false := by
          intro i hi
          have e : p0 + 1 + i = p0 + (i + 1) := by omega
          rw [e]
          exact h1 (i + 1) (by omega)
        have h2r : c (p0 + 1 + k0) = true := by
          have e : p0 + 1 + k0 = p0 + (k0 + 1) := by omega
          rw [e]
          exact h2
        have hokr : ∀ i, i < k0 → isOkE (find_media_in_plex s (rest.getD i default)).2 = true := by
          intro i hi
          have h := hok (i + 1) (by omega)
          simpa using h
        have hkr : k0 < rest.length := by
          simpa using hk
        obtain ⟨ihOut, ihProg, ihCalls⟩ := ih k0 (idx + 1) (p0 + 1) hkr h1r h2r hokr
        simp only [itemLoop, hc0, Bool.false_eq_true, if_false, hfm]
        refine ⟨?_, ?_, ?_⟩
        · cases mopt with
          | some m =>
            simp only [ihOut]
            refine congrArg ItemsOut.cancelled ?_
            omega
          | none =>
            simp only [ihOut]
            refine congrArg ItemsOut.cancelled ?_
            omega
        · simp only [ihProg]
          cases hp with
          | false => simp
          | true => simp [range_map_pair]
        · simp [hasCreate_append, hasCreate_find_media, ihCalls]

/- Concrete fixtures used to instantiate the universally quantified
   theorems below. -/

/-- Concrete media entry with an imdb-style composite guid. -/
def movieA : Media := ⟨"com.plexapp.agents.imdb://tt0137523?lang=en", 101⟩

/-- Second concrete media entry. -/
def movieB : Media := ⟨"com.plexapp.agents.imdb://tt0068646?lang=en", 102⟩

/-- A catalog session double on which every operation succeeds. -/
def okServer : Server :=
  ⟨fun _ => Except.ok movieA, Except.ok (), fun _ _ => Except.ok [movieB],
   fun _ _ => Except.ok (), "TestPlex"⟩

/-- A catalog session double whose fetches and searches raise. -/
def searchFailServer : Server :=
  ⟨fun _ => Except.error ⟨"not found"⟩, Except.ok (), fun _ _ => Except.error ⟨"timeout"⟩,
   fun _ _ => Except.ok (), "TestPlex"⟩

/-- A catalog session double on which playlist creation raises. -/
def createFailServer : Server :=
  ⟨fun _ => Except.ok movieA, Except.ok (), fun _ _ => Except.ok [movieB],
   fun _ _ => Except.error ⟨"duplicate playlist"⟩, "TestPlex"⟩

/-- Concrete item carrying a stable rating key. -/
def itemWithKey : Item := ⟨"Fight Club", some 1999, "movie", some "tt0137523", some 101⟩

/-- Concrete item carrying only an external id, no rating key. -/
def itemImdbOnly : Item := ⟨"The Godfather", some 1972, "movie", some "tt0068646", none⟩

/-- Concrete two-item playlist. -/
def plTwo : PL := ⟨"Action", "fast ones", [itemWithKey, itemWithKey]⟩

/-- Concrete one-item playlist whose item only has an external id. -/
def plDrama : PL := ⟨"Drama", "", [itemImdbOnly]⟩

/-- Concrete zero-item playlist. -/
def plEmpty : PL := ⟨"Chill", "", []⟩

/-- Concrete rename map sending Action to Best Action. -/
def renAction : String → Option String :=
  fun n => if n = "Action" then some "Best Action" else none

/-- Concrete rename map sending Drama to Drama Plus. -/
def renDrama : String → Option String :=
  fun n => if n = "Drama" then some "Drama Plus" else none

/-- Concrete rename map sending Chill to itself. -/
def renChill : String → Option String :=
  fun n => if n = "Chill" then some "Chill" else none

/-- Concrete cancellation schedule: set from the second poll on. -/
def cancelAfterOne : Nat → Bool := fun n => decide (0 < n)

/-- Claim C2: for a playlist whose name is in the rename map, when the
cancellation token is observed set at the poll after exactly k of its N
items were processed, the summary line is target: Import cancelled at k/N,
the progress callback was invoked exactly k times with increasing counters,
and no playlist creation is requested in the catalog. -/
theorem import_cancelled_mid_playlist
    (s : Server) (rename : String → Option String) (c : Nat → Bool) (p0 : Nat)
    (pl : PL) (nn : String) (k : Nat)
    (hr : rename pl.name = some nn)
    (hk : k < pl.items.length)
    (hc1 : ∀ i, i < k → c (p0 + i) = false)
    (hc2 : c (p0 + k) = true)
    (hok : ∀ i, i < k → isOkE (find_media_in_plex s (pl.items.getD i default)).2 = true) :
    (processPlaylist s rename (some c) true p0 pl).results
        = [nn ++ ": Import cancelled at " ++ toString k ++ "/" ++ toString pl.items.length]
    ∧ (processPlaylist s rename (some c) true p0 pl).progress
        = (List.range k).map (fun i => (i + 1, pl.items.length))
    ∧ hasCreate (processPlaylist s rename (some c) true p0 pl).calls = false := by
  obtain ⟨hOut, hProg, hCalls⟩ :=
    itemLoop_cancelled s c true pl.items.length pl.items k 0 p0 hk hc1 hc2 hok
  have eMap : (List.range k).map (fun i => (0 + 1 + i, pl.items.length))
      = (List.range k).map (fun i => (i + 1, pl.items.length)) := by
    simp
    intro i _
    omega
  refine ⟨?_, ?_, ?_⟩
  · simp only [processPlaylist, hr, hOut, Nat.zero_add]
  · simp only [processPlaylist, hr, hOut, hProg, if_true, eMap]
  · simp only [processPlaylist, hr, hOut]
    exact hCalls

/-- Claim C5: when a playlist's item loop runs to completion and the
creation request raises, the error is recorded as the single summary line
target: ERROR message, no exception escapes this playlist, and the import
call continues with the subsequent playlists of the document. -/
theorem creation_error_reported_per_playlist
    (s : Server) (rename : String → Option String) (cancel : Option (Nat → Bool))
    (hp : Bool) (p0 : Nat) (pl : PL) (rest : List PL) (nn : String) (e : CatErr)
    (hr : rename pl.name = some nn)
    (hc : ∀ i, i < pl.items.length → pollCancel cancel (p0 + i) = false)
    (hok : ∀ it, it ∈ pl.items → isOkE (find_media_in_plex s it).2 = true)
    (hcr : s.createPlaylist nn (matchedOf s pl.items) = Except.error e) :
    (processPlaylist s rename cancel hp p0 pl).results = [nn ++ ": ERROR " ++ e.msg]
    ∧ (processPlaylist s rename cancel hp p0 pl).raised = none
    ∧ (processPlaylists s rename cancel hp (pl :: rest) p0).results
        = (nn ++ ": ERROR " ++ e.msg)
          :: (processPlaylists s rename cancel hp rest
                ((processPlaylist s rename cancel hp p0 pl).polls)).results := by
  obtain ⟨hOut, hMiss, hProg, hCalls, hPolls⟩ :=
    itemLoop_complete s cancel hp pl.items.length pl.items 0 p0 hc hok
  have h1 : (processPlaylist s rename cancel hp p0 pl).results
      = [nn ++ ": ERROR " ++ e.msg] := by
    simp only [processPlaylist, hr, hOut, hcr]
  have h2 : (processPlaylist s rename cancel hp p0 pl).raised = none := by
    simp only [processPlaylist, hr, hOut, hcr]
  refine ⟨h1, h2, ?_⟩
  simp only [processPlaylists, h2, h1, List.singleton_append]

/-- Claim C6: when a playlist's item loop runs to completion over all its
items, the import requests creation of a playlist under the target name
containing exactly the matched items in original order compacted by
removing unmatched items, and on success records the added summary line. -/
theorem completed_playlist_creates_matched
    (s : Server) (rename : String → Option String) (cancel : Option (Nat → Bool))
    (hp : Bool) (p0 : Nat) (pl : PL) (nn : String)
    (hr : rename pl.name = some nn)
    (hc : ∀ i, i < pl.items.length → pollCancel cancel (p0 + i) = false)
    (hok : ∀ it, it ∈ pl.items → isOkE (find_media_in_plex s it).2 = true)
    (hcr : s.createPlaylist nn (matchedOf s pl.items) = Except.ok ()) :
    CatCall.create nn (matchedOf s pl.items) ∈ (processPlaylist s rename cancel hp p0 pl).calls
    ∧ (processPlaylist s rename cancel hp p0 pl).results
        = [nn ++ ": added " ++ toString (matchedOf s pl.items).length
            ++ "/" ++ toString pl.items.length] := by
  obtain ⟨hOut, hMiss, hProg, hCalls, hPolls⟩ :=
    itemLoop_complete s cancel hp pl.items.length pl.items 0 p0 hc hok
  simp only [processPlaylist, hr, hOut, hcr]
  constructor
  · simp
  · trivial

/-- Claim C7: a playlist whose original name is not a key of the rename map
is skipped entirely: processing a document starting with it is identical,
in summary lines, unmatched collector, progress invocations, catalog calls
and poll counter, to processing the document without it. -/
theorem unmapped_playlist_skipped
    (s : Server) (rename : String → Option String) (cancel : Option (Nat → Bool))
    (hp : Bool) (p0 : Nat) (pl : PL) (rest : List PL)
    (hr : rename pl.name = none) :
    processPlaylists s rename cancel hp (pl :: rest) p0
      = processPlaylists s rename cancel hp rest p0 := by
  have hpl : processPlaylist s rename cancel hp p0 pl = ⟨[], [], [], [], p0, none⟩ := by
    simp [processPlaylist, hr]
  simp only [processPlaylists, hpl, List.nil_append]

/-- Claim C4 (amended): a failure raised by a catalog search call during
item matching is not absorbed: it escapes find_media_in_plex, the import
call returns it as an error, and the failing item is not recorded in the
unmatched collector. -/
theorem search_failure_aborts_import
    (s : Server) (rename : String → Option String) (hp : Bool)
    (pl : PL) (rest : List PL) (fb : Option (List Item)) (item : Item)
    (nn : String) (e : CatErr)
    (hr : rename pl.name = some nn)
    (hpl : pl.items = [item])
    (hfm : (find_media_in_plex s item).2 = Except.error e) :
    (import_from_file s rename none hp (pl :: rest) fb).ret = Except.error e
    ∧ (import_from_file s rename none hp (pl :: rest) fb).trace.missing = [] := by
  simp [import_from_file, processPlaylists, processPlaylist, hr, hpl, itemLoop,
    pollCancel, hfm]

/-- Claim C4, counterexample to the claim as stated: on a catalog whose
search raises, the matching of an external-id item raises instead of being
absorbed into no-match, the import call aborts with that error, and the
item is not recorded in the unmatched collector. -/
theorem search_failure_not_absorbed_cex :
    (find_media_in_plex searchFailServer itemImdbOnly).2 = Except.error ⟨"timeout"⟩
    ∧ (import_from_file searchFailServer renDrama none true [plDrama] none).ret
        = Except.error ⟨"timeout"⟩
    ∧ (import_from_file searchFailServer renDrama none true [plDrama] none).trace.missing
        = [] :=
  ⟨rfl, rfl, rfl⟩

/-- Claim C4, witness for the amended theorem at a concrete input. -/
theorem search_failure_aborts_import_witness :
    (import_from_file searchFailServer renDrama none true [plDrama] none).ret
        = Except.error ⟨"timeout"⟩
    ∧ (import_from_file searchFailServer renDrama none true [plDrama] none).trace.missing
        = [] :=
  search_failure_aborts_import searchFailServer renDrama true plDrama [] none itemImdbOnly
    "Drama Plus" ⟨"timeout"⟩ (by decide) rfl rfl

/-- Claim C10: a zero-item playlist whose name is in the rename map always
proceeds to the creation request of an empty playlist, with no progress
invocations and no unmatched entries, and its summary line is the added or
ERROR line, never the cancelled line, whatever the cancellation schedule,
including one that is already set. -/
theorem empty_playlist_always_created
    (s : Server) (rename : String → Option String) (cancel : Option (Nat → Bool))
    (hp : Bool) (p0 : Nat) (pl : PL) (nn : String)
    (hr : rename pl.name = some nn)
    (hi : pl.items = []) :
    (processPlaylist s rename cancel hp p0 pl).calls = [CatCall.create nn []]
    ∧ (processPlaylist s rename cancel hp p0 pl).progress = []
    ∧ (processPlaylist s rename cancel hp p0 pl).missing = []
    ∧ (processPlaylist s rename cancel hp p0 pl).results
        = [match s.createPlaylist nn [] with
           | Except.ok _ => nn ++ ": added " ++ toString 0 ++ "/" ++ toString 0
           | Except.error e => nn ++ ": ERROR " ++ e.msg] := by
  simp only [processPlaylist, hr, hi, itemLoop]
  cases hcr : s.createPlaylist nn [] with
  | ok u => simp [hcr]
  | error e2 => simp [hcr]

/-- Claim C2, witness: cancelling after one of two items at a concrete
input. -/
theorem import_cancelled_mid_playlist_witness :
    (processPlaylist okServer renAction (some cancelAfterOne) true 0 plTwo).results
        = ["Best Action" ++ ": Import cancelled at " ++ toString 1
            ++ "/" ++ toString plTwo.items.length]
    ∧ (processPlaylist okServer renAction (some cancelAfterOne) true 0 plTwo).progress
        = (List.range 1).map (fun i => (i + 1, plTwo.items.length))
    ∧ hasCreate (processPlaylist okServer renAction (some cancelAfterOne) true 0 plTwo).calls
        = false :=
  import_cancelled_mid_playlist okServer renAction cancelAfterOne 0 plTwo "Best Action" 1
    (by decide) (by decide) (by decide) (by decide) (by decide)

/-- Claim C5, witness: a creation failure reported per playlist at a
concrete input. -/
theorem creation_error_reported_per_playlist_witness :
    (processPlaylist createFailServer renAction none true 0 plTwo).results
        = ["Best Action" ++ ": ERROR " ++ CatErr.msg ⟨"duplicate playlist"⟩]
    ∧ (processPlaylist createFailServer renAction none true 0 plTwo).raised = none
    ∧ (processPlaylists createFailServer renAction none true (plTwo :: [plEmpty]) 0).results
        = ("Best Action" ++ ": ERROR " ++ CatErr.msg ⟨"duplicate playlist"⟩)
          :: (processPlaylists createFailServer renAction none true [plEmpty]
                ((processPlaylist createFailServer renAction none true 0 plTwo).polls)).results :=
  creation_error_reported_per_playlist createFailServer renAction none true 0 plTwo [plEmpty]
    "Best Action" ⟨"duplicate playlist"⟩ (by decide) (by decide) (by decide) rfl

/-- Claim C6, witness: a completed playlist created from the matched items
at a concrete input. -/
theorem completed_playlist_creates_matched_witness :
    CatCall.create "Best Action" (matchedOf okServer plTwo.items)
        ∈ (processPlaylist okServer renAction none true 0 plTwo).calls
    ∧ (processPlaylist okServer renAction none true 0 plTwo).results
        = ["Best Action" ++ ": added " ++ toString (matchedOf okServer plTwo.items).length
            ++ "/" ++ toString plTwo.items.length] :=
  completed_playlist_creates_matched okServer renAction none true 0 plTwo "Best Action"
    (by decide) (by decide) (by decide) rfl

/-- Claim C7, witness: an unmapped playlist is skipped at a concrete
input. -/
theorem unmapped_playlist_skipped_witness :
    processPlaylists okServer renAction none true (plDrama :: [plTwo]) 0
      = processPlaylists okServer renAction none true [plTwo] 0 :=
  unmapped_playlist_skipped okServer renAction none true 0 plDrama [plTwo] (by decide)

/-- Claim C10, witness: a zero-item playlist is created even under a
cancellation schedule that is already set. -/
theorem empty_playlist_always_created_witness :
    (processPlaylist okServer renChill (some (fun _ => true)) true 0 plEmpty).calls
        = [CatCall.create "Chill" []]
    ∧ (processPlaylist okServer renChill (some (fun _ => true)) true 0 plEmpty).progress = []
    ∧ (processPlaylist okServer renChill (some (fun _ => true)) true 0 plEmpty).missing = []
    ∧ (processPlaylist okServer renChill (some (fun _ => true)) true 0 plEmpty).results
        = [match okServer.createPlaylist "Chill" [] with
           | Except.ok _ => "Chill" ++ ": added " ++ toString 0 ++ "/" ++ toString 0
           | Except.error e => "Chill" ++ ": ERROR " ++ e.msg] :=
  empty_playlist_always_created okServer renChill (some (fun _ => true)) true 0 plEmpty
    "Chill" (by decide) rfl

/- Embedding of the export and preview side
   (src/playlist_io.py lines 7-37 and 60-78). Files are modelled by their
   parsed JSON value: json.dump followed by json.load is the identity on
   the values the exporter produces, so a written file is represented by
   the Json value written, and a file that is not valid JSON by none. -/

/-- A JSON value, the interchange format of the export document. -/
inductive Json where
  | null
  | str (s : String)
  | num (n : Int)
  | boolean (b : Bool)
  | arr (xs : List Json)
  | obj (fields : List (String × Json))

/-- A catalog item as the exporter reads it from a playlist handle. -/
structure CatItem where
  title : String
  year : Option Int
  type : String
  guid : Option String
  ratingKey : Nat

/-- A catalog playlist handle as the exporter reads it. -/
structure CatPlaylist where
  title : String
  summary : Option String
  items : List CatItem

/-- Serialization of one item (lines 24-30): title and type verbatim, year
or null, external id as the last segment of the composite guid split on
the separator (null when the guid is falsy), rating key verbatim. -/
def serializeItem (it : CatItem) : Json :=
  Json.obj
    [("title", Json.str it.title),
     ("year", match it.year with
              | some y => Json.num y
              | none => Json.null),
     ("type", Json.str it.type),
     ("imdb_id", if truthyStr it.guid
                 then Json.str (lastSegment "://" (it.guid.getD ""))
                 else Json.null),
     ("plex_rating_key", Json.num (Int.ofNat it.ratingKey))]

/-- Serialization of one playlist (lines 31-35): name, description (empty
when the summary is falsy), and the serialized items. -/
def serializePL (pl : CatPlaylist) : Json :=
  Json.obj
    [("name", Json.str pl.title),
     ("description", Json.str (pl.summary.getD "")),
     ("items", Json.arr (pl.items.map serializeItem))]

/-- Embedding of export_to_json (lines 7-37): the export document written
to the destination file, with the timestamp passed explicitly. -/
def export_to_json (srv : Server) (now : String) (pls : List CatPlaylist) : Json :=
  Json.obj
    [("export_date", Json.str now),
     ("plex_server", Json.str srv.friendlyName),
     ("playlists", Json.arr (pls.map serializePL))]

/-- Errors raised by the preview operation: a json.load failure, an
attribute error from calling get on a non-dict document, a missing name
key, and iterating a non-list playlists value. -/
inductive PrevErr where
  | jsonDecode
  | attrError
  | keyError
  | typeError
  deriving DecidableEq

/-- Dict lookup on the fields of a JSON object. -/
def lookupField : List (String × Json) → String → Option Json
  | [], _ => none
  | (k2, v) :: rest, k => if k2 = k then some v else lookupField rest k

/-- Python subscript pl of a JSON value by key: some value when the value
is an object carrying the key. -/
def jsonLookup : Json → String → Option Json
  | Json.obj fields, k => lookupField fields k
  | _, _ => none

/-- The list comprehension of line 74: the name field of every playlist
entry, raising a key error when an entry has none. -/
def extractNames : List Json → Except PrevErr (List Json)
  | [] => Except.ok []
  | x :: rest =>
    match jsonLookup x "name" with
    | some v =>
      match extractNames rest with
      | Except.ok vs => Except.ok (v :: vs)
      | Except.error e => Except.error e
    | none => Except.error PrevErr.keyError

/-- Embedding of preview_import (lines 60-78): on a path whose lower-cased
name ends in .json, load the content (failing on invalid JSON) and return
the name of every entry under the playlists key (defaulting to the empty
list); on a .csv path return the file base name with its extension
stripped; on any other path return the empty list. -/
def preview_import (path : String) (content : Option Json) : Except PrevErr (List Json) :=
  if strEndsWith (lowerStr path) ".json" then
    match content with
    | none => Except.error PrevErr.jsonDecode
    | some data =>
      match data with
      | Json.obj fields =>
        match (lookupField fields "playlists").getD (Json.arr []) with
        | Json.arr xs => extractNames xs
        | _ => Except.error PrevErr.typeError
      | _ => Except.error PrevErr.attrError
  else if strEndsWith (lowerStr path) ".csv" then
    Except.ok [Json.str (splitextStem (basename path))]
  else Except.ok []

lemma jsonLookup_name (p : CatPlaylist) :
    jsonLookup (serializePL p) "name" = some (Json.str p.title) := rfl

lemma extractNames_serialized (l : List CatPlaylist) :
    extractNames (l.map serializePL) = Except.ok (l.map (fun p => Json.str p.title)) := by
  induction l with
  | nil => rfl
  | cons p rest ih =>
    simp only [List.map_cons, extractNames, jsonLookup_name, ih]

/-- Claim C3: exporting any list of playlists to a JSON file and then
previewing that file returns exactly the original playlist names, in the
same order. -/
theorem export_preview_roundtrip (srv : Server) (now : String) (pls : List CatPlaylist)
    (path : String) (h : strEndsWith (lowerStr path) ".json" = true) :
    preview_import path (some (export_to_json srv now pls))
      = Except.ok (pls.map (fun p => Json.str p.title)) := by
  simp only [preview_import, export_to_json, h, if_true, lookupField]
  rw [if_neg (by decide), if_neg (by decide)]
  exact extractNames_serialized pls

/-- Concrete catalog item for the round-trip instantiation. -/
def catItemA : CatItem :=
  ⟨"Fight Club", some 1999, "movie",
   some "com.plexapp.agents.imdb://tt0137523?lang=en", 101⟩

/-- Concrete catalog playlist for the round-trip instantiation. -/
def catPlA : CatPlaylist := ⟨"Action", some "fast ones", [catItemA]⟩

/-- Claim C3, witness: the round trip at a concrete export. -/
theorem export_preview_roundtrip_witness :
    preview_import "out.json" (some (export_to_json okServer "2026-10-12T00:00:00" [catPlA]))
      = Except.ok ([catPlA].map (fun p => Json.str p.title)) :=
  export_preview_roundtrip okServer "2026-10-12T00:00:00" [catPlA] "out.json" (by decide)

/-- Claim C8 (amended): for every file path with neither a .json nor a .csv
extension (case-insensitive), the preview operation returns normally with
an empty list of names; it does not fail with a ParseError. -/
theorem preview_unknown_extension_returns_empty (path : String) (content : Option Json)
    (h1 : strEndsWith (lowerStr path) ".json" = false)
    (h2 : strEndsWith (lowerStr path) ".csv" = false) :
    preview_import path content = Except.ok [] := by
  simp [preview_import, h1, h2]

/-- Claim C8, counterexample to the claim as stated: a path that is neither
valid JSON-shaped (its content is not valid JSON) nor carries an expected
extension, on which the preview returns normally with an empty list rather
than failing. -/
theorem preview_unknown_extension_cex :
    strEndsWith (lowerStr "notes.txt") ".json" = false
    ∧ strEndsWith (lowerStr "notes.txt") ".csv" = false
    ∧ preview_import "notes.txt" none = Except.ok [] := by
  refine ⟨by decide, by decide, ?_⟩
  rfl

/-- Claim C8, witness for the amended theorem at a concrete path. -/
theorem preview_unknown_extension_returns_empty_witness :
    preview_import "notes.txt" none = Except.ok [] :=
  preview_unknown_extension_returns_empty "notes.txt" none (by decide) (by decide)

/-- Claim C9: code bug exhibited at a concrete input. A stale non-empty
Missing Movies file is present from a previous run and the current import
run produces zero misses; the spec says the stale file is removed by the
end of the call, but the application removes it only when its loaded
content is an empty list, so the stale file persists, and the app even
appends the missing-movies warning for it. -/
theorem stale_missing_file_persists :
    (import_from_file okServer (fun _ => none) none true [] (some [itemImdbOnly])).trace.missing
      = []
    ∧ (import_playlists_run okServer (fun _ => none) none true [] (some [itemImdbOnly])).fileAfter
      = some [itemImdbOnly]
    ∧ (import_playlists_run okServer (fun _ => none) none true [] (some [itemImdbOnly])).warned
      = true :=
  ⟨rfl, rfl, rfl⟩

end PlexSpec
